import Mathlib

/-!
Verification of the pgsrip PGS-to-SRT pipeline.

Shallow embedding of the relevant parts of the source:
  pgsrip/utils.py   (from_hex, safe_get, to_time)
  pgsrip/pgs.py     (PgsReader.read_segments, PgsImage.decode_rle_image,
                     PgsImage.decode_rle_position, PgsImage.get_color)
  pgsrip/media.py   (PgsSubtitleItem.__init__ timestamps, auto_fix, create_items)
  pgsrip/ripper.py  (PgsToSrtRipper.__init__ gap computation, rip retry loop)
  pgsrip/mkv.py     (Mkv.get_pgs_medias track filtering and sorting)

Bytes are modelled as `List Nat` (each entry a byte value), Python exceptions as
`Except String`, and Python `None` as `Option.none`.  Subtitle timestamps are
modelled in milliseconds as `Nat` (pysrt `SubRipTime` ordinals; the code only
adds constants and compares them, never relying on sub-millisecond parts).
Loops whose index advances by a computed amount are written with an explicit
fuel argument so that they remain structurally recursive; the wrapper supplies
fuel that is proved sufficient, and exhaustion is a distinguished error that the
theorems rule out.
-/

/-- utils.from_hex: big-endian integer from bytes (int(b.hex(), 16)). -/
def from_hex (b : List Nat) : Nat :=
  b.foldl (fun acc x => 256 * acc + x) 0

/-- utils.safe_get: b[i] with default 0 on IndexError. -/
def safe_get (b : List Nat) (i : Nat) : Nat :=
  b.getD i 0

/-- utils.to_time: SubRipTime.from_ordinal(value) if value else None.
The value is pts ticks divided by 90 (milliseconds); ticks 0 gives a falsy 0.0,
hence None.  Milliseconds are modelled with integer division. -/
def to_time (ticks : Nat) : Option Nat :=
  if ticks = 0 then none else some (ticks / 90)

/-- Python list repetition `l * n`: the list l concatenated n times. -/
def pyListMul (l : List Nat) : Nat → List Nat
  | 0 => []
  | n + 1 => l ++ pyListMul l n

/-- Python max() over a list of ints: ValueError on the empty list. -/
def pyMax (l : List Nat) : Except String Nat :=
  match l with
  | [] => .error "ValueError"
  | x :: xs => .ok (xs.foldl max x)

/-- Python min() over a list of Optional ints.  A single element is returned
without comparison; with two or more elements every comparison between a None
and anything (including another None) raises TypeError. -/
def pyMinOpt (l : List (Option Nat)) : Except String (Option Nat) :=
  match l with
  | [] => .error "ValueError"
  | [a] => .ok a
  | a :: b :: rest =>
    if (a :: b :: rest).all Option.isSome then
      .ok (some (((a :: b :: rest).filterMap id).foldl min (a.getD 0)))
    else .error "TypeError"

/-- pgs.Palette: NamedTuple (y, cr, cb, alpha). -/
structure Palette where
  y : Nat
  cr : Nat
  cb : Nat
  alpha : Nat
deriving DecidableEq

/-- PgsImage.get_color: ([0] if palette[0] > 127 else [255]) if binary
else palette[:3]. -/
def get_color (p : Palette) (binary : Bool) : List Nat :=
  if binary then (if 127 < p.y then [0] else [255]) else [p.y, p.cr, p.cb]

/-- PgsImage.decode_rle_position: returns (run length, color index, bytes
consumed) for the run starting at offset i.  The source binds
first/second/third/fourth via safe_get; here the safe_get calls are inlined. -/
def decode_rle_position (data : List Nat) (i : Nat) : Nat × Nat × Nat :=
  if safe_get data i ≠ 0 then (1, safe_get data i, 1)
  else if safe_get data (i + 1) < 64 then (safe_get data (i + 1), 0, 2)
  else if safe_get data (i + 1) < 128 then
    ((safe_get data (i + 1) - 64) * 256 + safe_get data (i + 2), 0, 3)
  else if safe_get data (i + 1) < 192 then
    (safe_get data (i + 1) - 128, safe_get data (i + 2), 3)
  else
    ((safe_get data (i + 1) - 192) * 256 + safe_get data (i + 2), safe_get data (i + 3), 4)

/-- Number of entries emitted per pixel: 1 in binary mode, 3 in colour mode. -/
def rle_dim (binary : Bool) : Nat :=
  if binary then 1 else 3

/-- The while-loop of PgsImage.decode_rle_image.  State: byte offset i, current
cols, accumulated pixel entry list.  palettes[color] raises IndexError when the
color index is out of range; `if not length and cols < 2` re-derives cols from
the entries emitted so far.  Fuel bounds the number of iterations; the wrapper
passes data.length, which suffices since every run consumes at least one byte. -/
def decode_rle_loop (data : List Nat) (palettes : List Palette) (binary : Bool) :
    Nat → Nat → Nat → List Nat → Except String (Nat × List Nat)
  | fuel, i, cols, acc =>
    if i < data.length then
      match fuel with
      | 0 => .error "OutOfFuel"
      | fuel' + 1 =>
        match palettes.get? (decode_rle_position data i).2.1 with
        | none => .error "IndexError"
        | some p =>
          decode_rle_loop data palettes binary fuel'
            (i + (decode_rle_position data i).2.2)
            (if (decode_rle_position data i).1 = 0 ∧ cols < 2 then
              acc.length / rle_dim binary
            else cols)
            (acc ++ pyListMul (get_color p binary) (decode_rle_position data i).1)
    else .ok (cols, acc)

/-- rows = (len(image_array) // dimension + cols - 1) // cols, for the pixel
entry count n. -/
def rle_rows (binary : Bool) (cols n : Nat) : Nat :=
  (n / rle_dim binary + cols - 1) / cols

/-- PgsImage.decode_rle_image, up to the construction of the pixel array.
Returns (rows, cols, pixel entries).  After the run loop: computing rows raises
ZeroDivisionError when cols = 0; on a dimension mismatch the tail is padded
with get_color(palettes[0]) * dimension repeated delta times, exactly as in the
source (an IndexError when the palette list is empty); numpy reshape raises
ValueError if the padded length still does not match.  The colour-space
conversion of the non-binary variant is not modelled beyond the pixel list. -/
def decode_rle_image (data : List Nat) (palettes : List Palette) (binary : Bool) :
    Except String (Nat × Nat × List Nat) :=
  match decode_rle_loop data palettes binary data.length 0 1 [] with
  | .error e => .error e
  | .ok (cols, px) =>
    if cols = 0 then .error "ZeroDivisionError"
    else if cols * rle_rows binary cols px.length * rle_dim binary = px.length then
      .ok (rle_rows binary cols px.length, cols, px)
    else
      match palettes.get? 0 with
      | none => .error "IndexError"
      | some p0 =>
        if cols * rle_rows binary cols px.length * rle_dim binary =
            (px ++ pyListMul (pyListMul (get_color p0 binary) (rle_dim binary))
              (cols * rle_rows binary cols px.length * rle_dim binary - px.length)).length then
          .ok (rle_rows binary cols px.length, cols,
            px ++ pyListMul (pyListMul (get_color p0 binary) (rle_dim binary))
              (cols * rle_rows binary cols px.length * rle_dim binary - px.length))
        else .error "ValueError"

/-- The segment type byte values accepted by SegmentType(...): PDS, ODS, PCS,
WDS, END.  Any other byte makes the SegmentType constructor raise ValueError. -/
def validSegTag (t : Nat) : Bool :=
  t == 0x14 || t == 0x15 || t == 0x16 || t == 0x17 || t == 0x80

/-- The declared payload size of a segment: from_hex(b[11:13]). -/
def seg_size (b : List Nat) : Nat :=
  from_hex [b.getD 11 0, b.getD 12 0]

/-- The while-loop of PgsReader.read_segments, fuel-indexed.  The loop stops
normally when the buffer is empty, does not start with `PG`, or holds fewer
than 13 bytes; an invalid type byte raises ValueError.  It yields b[:13+size]
and continues on b[13+size:] WITHOUT comparing 13+size with the remaining
length (Python slicing silently truncates). -/
def read_segments_loop : Nat → List Nat → Except String (List (List Nat))
  | fuel, b =>
    if b.isEmpty then .ok []
    else if b.take 2 ≠ [80, 71] then .ok []
    else if b.length < 13 then .ok []
    else if validSegTag (b.getD 10 0) = false then .error "ValueError"
    else
      match fuel with
      | 0 => .error "OutOfFuel"
      | fuel' + 1 =>
        match read_segments_loop fuel' (b.drop (13 + seg_size b)) with
        | .ok rest => .ok (b.take (13 + seg_size b) :: rest)
        | .error e => .error e

/-- PgsReader.read_segments (collected into a list, as list(...) does). -/
def read_segments (b : List Nat) : Except String (List (List Nat)) :=
  read_segments_loop b.length b

/-- A byte-complete segment: starts with `PG`, carries a valid type byte, and
its length is exactly 13 + declared size. -/
def isCompleteSeg (s : List Nat) : Prop :=
  s.take 2 = [80, 71] ∧ validSegTag (s.getD 10 0) = true ∧ s.length = 13 + seg_size s

instance (s : List Nat) : Decidable (isCompleteSeg s) := by
  unfold isCompleteSeg; infer_instance

/-- PgsReader.decode display-set grouping: collect segments until one whose
type byte is END (0x80), then emit the group.  Trailing segments with no END
are dropped. -/
def group_display_sets : List (List Nat) → List (List Nat) → List (List (List Nat))
  | [], _ => []
  | s :: rest, acc =>
    if s.getD 10 0 = 128 then (acc ++ [s]) :: group_display_sets rest []
    else group_display_sets rest (acc ++ [s])

/-- media.PgsSubtitleItem, restricted to the fields auto_fix reads: start and
end timestamps (ms), and presence of the decoded image and window offsets. -/
structure SubtitleItem where
  start : Option Nat
  endT : Option Nat
  image : Option Unit
  x_offset : Option Nat
  y_offset : Option Nat
deriving DecidableEq

/-- The start timestamp computed in PgsSubtitleItem.__init__:
min([ds.pcs.presentation_timestamp for ds in display_sets]) over the pts ticks
of the run's display sets (the `or [None]` default is unreachable because a
run is never empty). -/
def item_start (ptsTicks : List Nat) : Except String (Option Nat) :=
  pyMinOpt (ptsTicks.map to_time)

/-- The three leading validity checks of auto_fix: image, y_offset and
x_offset must all be present. -/
def item_valid_flags (i : SubtitleItem) : Bool :=
  i.image.isSome && i.y_offset.isSome && i.x_offset.isSome

/-- The `not self.end or self.end <= self.start` test of auto_fix. -/
def end_corrupt (s : Nat) (e : Option Nat) : Bool :=
  match e with
  | none => true
  | some e => decide (e ≤ s)

/-- PgsSubtitleItem.auto_fix: returns (valid, possibly updated item).  The
image / y_offset / x_offset checks each clear `valid`; a missing start clears
it; a missing or non-increasing end is repaired from the next item's start
when that start exists and lies within 10 000 ms, else clears `valid`. -/
def auto_fix (i : SubtitleItem) (next : Option SubtitleItem) : Bool × SubtitleItem :=
  match i.start with
  | none => (false, i)
  | some s =>
    if end_corrupt s i.endT then
      match next with
      | some j =>
        match j.start with
        | some t =>
          if s + 10000 ≥ t then
            (item_valid_flags i, { i with endT := some (max (s + 1) (t - 1)) })
          else (false, i)
        | none => (false, i)
      | none => (false, i)
    else (item_valid_flags i, i)

/-- The pairwise auto-fix pass of PgsSubtitleItem.create_items: each candidate
is fixed against its successor (None for the last) and kept when valid.
auto_fix only ever mutates the end of the current item and only ever reads the
start of the next one, so the imperative pairwise walk is this recursion. -/
def auto_fix_all : List SubtitleItem → List SubtitleItem
  | [] => []
  | [i] => (if (auto_fix i none).fst then [(auto_fix i none).snd] else [])
  | i :: j :: rest =>
    (if (auto_fix i (some j)).fst then [(auto_fix i (some j)).snd] else []) ++
      auto_fix_all (j :: rest)

/-- PgsToSrtRipper.__init__ gap computation:
max_height = max(item heights) // 2 (ValueError on an empty item list);
gap = (max_height // 2 + 30, max_height // 2 + 100). -/
def ripper_gap (heights : List Nat) : Except String (Nat × Nat) :=
  match pyMax heights with
  | .error e => .error e
  | .ok m => .ok (m / 2 / 2 + 30, m / 2 / 2 + 100)

/-- Outcome of one iteration of the PgsToSrtRipper.rip retry loop. -/
inductive RipNext where
  | done : RipNext
  | finalPass (confidence maxWidth : Nat) : RipNext
  | more (confidence maxWidth prevSize : Nat) : RipNext
deriving DecidableEq

/-- One iteration of the adaptive retry loop in PgsToSrtRipper.rip, given the
widths of the items left unresolved by the pass just run.  `widths` lists
item.width for the remaining items, gapX is self.gap[1], maxTess is
self.max_tess_width.  The float comparison current > previous * 0.8 is modelled
exactly as 5 * current > 4 * previous.  Python's max(0, confidence - 5) is
Nat truncated subtraction. -/
def rip_next (gapX maxTess confidence maxWidth prevSize : Nat)
    (widths : List Nat) : RipNext :=
  if widths.isEmpty then .done
  else if widths.length < 20 then
    .finalPass 0 (min ((widths.map (· + gapX)).sum) maxTess)
  else if 4 * prevSize < 5 * widths.length then
    .more (confidence - 5) ((min ((widths.map (· + gapX)).sum) maxTess) / 2) widths.length
  else .more confidence maxWidth widths.length

/-- mkv.MkvTrack, restricted to the fields get_pgs_medias reads. -/
structure MkvTrack where
  id : Nat
  forced : Bool
  ttype : String
  codec : String
  enabled : Bool
deriving DecidableEq

/-- Sort key for the forced flag (False < True, as in Python). -/
def forced_rank (t : MkvTrack) : Nat :=
  if t.forced then 1 else 0

/-- Comparison used by tracks.sort(key=lambda x: x.forced). -/
def track_le_forced (a b : MkvTrack) : Prop :=
  forced_rank a ≤ forced_rank b

/-- Comparison used by tracks.sort(key=lambda x: x.id). -/
def track_le_id (a b : MkvTrack) : Prop :=
  a.id ≤ b.id

instance : DecidableRel track_le_forced := fun a b => Nat.decLe (forced_rank a) (forced_rank b)

instance : DecidableRel track_le_id := fun a b => Nat.decLe a.id b.id

instance : IsTotal MkvTrack track_le_forced := ⟨fun a b => Nat.le_total (forced_rank a) (forced_rank b)⟩

instance : IsTrans MkvTrack track_le_forced := ⟨fun _ _ _ => Nat.le_trans⟩

instance : IsTotal MkvTrack track_le_id := ⟨fun a b => Nat.le_total a.id b.id⟩

instance : IsTrans MkvTrack track_le_id := ⟨fun _ _ _ => Nat.le_trans⟩

/-- The track filter of Mkv.get_pgs_medias: enabled HDMV PGS subtitle tracks. -/
def pgs_track_filter (t : MkvTrack) : Bool :=
  t.ttype == "subtitles" && t.codec == "HDMV PGS" && t.enabled

/-- Mkv.get_pgs_medias candidate list: filter, then
tracks.sort(key=forced) followed by tracks.sort(key=id).  Python's sort is
stable, and any stable sort of a list under a total preorder yields the same
list as insertion sort, which is what insertionSort is. -/
def get_pgs_tracks (ts : List MkvTrack) : List MkvTrack :=
  List.insertionSort track_le_id
    (List.insertionSort track_le_forced (ts.filter pgs_track_filter))

/-- The order the candidate list actually ends up in: id ascending as primary
key, forced ascending breaking id ties. -/
def track_lex (a b : MkvTrack) : Prop :=
  a.id < b.id ∨ (a.id = b.id ∧ forced_rank a ≤ forced_rank b)

/-- The order claimed by the spec: forced ascending as primary key, id
ascending breaking forced ties. -/
def track_forced_lex (a b : MkvTrack) : Prop :=
  forced_rank a < forced_rank b ∨ (forced_rank a = forced_rank b ∧ a.id ≤ b.id)

instance : DecidableRel track_lex := fun a b => by
  unfold track_lex; infer_instance

instance : DecidableRel track_forced_lex := fun a b => by
  unfold track_forced_lex; infer_instance

/-- A complete 14-byte END segment (declared payload size 1). -/
def seg14 : List Nat :=
  [80, 71, 0, 0, 0, 0, 0, 0, 0, 0, 128, 0, 1, 7]

/-- A 13-byte buffer that is a valid segment header whose declared payload
(size 5) is missing entirely: a stream cut mid-segment. -/
def cut13 : List Nat :=
  [80, 71, 0, 0, 0, 0, 0, 0, 0, 0, 128, 0, 5]

/-- Palette list whose entry 1 has luminance above the binary threshold. -/
def palsBright : List Palette :=
  [⟨0, 0, 0, 0⟩, ⟨200, 10, 20, 255⟩]

/-- A fully valid subtitle item (used to instantiate proved theorems). -/
def itemGood : SubtitleItem :=
  ⟨some 1000, some 2000, some (), some 4, some 8⟩

/-- An item with a start but no end, whose image is missing. -/
def itemNoImage : SubtitleItem :=
  ⟨some 1000, none, none, some 4, some 8⟩

/-- An item with a start but no end, all other fields present. -/
def itemNoEnd : SubtitleItem :=
  ⟨some 1000, none, some (), some 4, some 8⟩

/-- A successor item starting 1000 ms after itemNoEnd. -/
def itemAfter : SubtitleItem :=
  ⟨some 2000, none, some (), some 4, some 8⟩

/-- A successor item starting 4000 ms after itemNoEnd (still within 10 s). -/
def itemLater : SubtitleItem :=
  ⟨some 5000, some 6000, some (), some 4, some 8⟩

/-- An item with no start timestamp at all. -/
def itemNoStart : SubtitleItem :=
  ⟨none, some 2000, some (), some 4, some 8⟩

/-- An enabled, not-forced HDMV PGS subtitle track with id 2. -/
def trackA : MkvTrack :=
  ⟨2, false, "subtitles", "HDMV PGS", true⟩

/-- An enabled, forced HDMV PGS subtitle track with id 1. -/
def trackB : MkvTrack :=
  ⟨1, true, "subtitles", "HDMV PGS", true⟩

theorem pyListMul_length (l : List Nat) : ∀ n, (pyListMul l n).length = n * l.length := by
  intro n
  induction n with
  | zero => simp [pyListMul]
  | succ k ih => simp [pyListMul, ih, Nat.succ_mul, Nat.add_comm]

theorem mem_pyListMul {l : List Nat} {v : Nat} : ∀ {n}, v ∈ pyListMul l n → v ∈ l := by
  intro n
  induction n with
  | zero => intro h; simp [pyListMul] at h
  | succ k ih =>
    intro h
    rcases List.mem_append.mp h with h1 | h2
    · exact h1
    · exact ih h2

theorem decode_rle_position_count_pos (data : List Nat) (i : Nat) :
    1 ≤ (decode_rle_position data i).2.2 := by
  unfold decode_rle_position
  split_ifs <;> norm_num

theorem get_color_true_length (p : Palette) : (get_color p true).length = 1 := by
  simp only [get_color, if_true]
  split <;> rfl

theorem get_color_true_mem {p : Palette} {v : Nat} (h : v ∈ get_color p true) :
    (127 < p.y ∧ v = 0) ∨ (p.y ≤ 127 ∧ v = 255) := by
  simp only [get_color, if_true] at h
  by_cases hy : 127 < p.y
  · rw [if_pos hy] at h
    simp at h
    exact Or.inl ⟨hy, h⟩
  · rw [if_neg hy] at h
    simp at h
    exact Or.inr ⟨Nat.le_of_not_lt hy, h⟩

theorem decode_rle_loop_err (data : List Nat) (palettes : List Palette) (binary : Bool) :
    ∀ fuel i cols acc, data.length ≤ i + fuel →
      ∀ e, decode_rle_loop data palettes binary fuel i cols acc = .error e →
        e = "IndexError" := by
  intro fuel
  induction fuel with
  | zero =>
    intro i cols acc hle e h
    unfold decode_rle_loop at h
    rw [if_neg (by omega)] at h
    exact absurd h (by simp)
  | succ k ih =>
    intro i cols acc hle e h
    unfold decode_rle_loop at h
    by_cases hi : i < data.length
    · rw [if_pos hi] at h
      cases hget : palettes.get? (decode_rle_position data i).2.1 with
      | none =>
        rw [hget] at h
        exact (Except.error.inj h).symm
      | some p =>
        rw [hget] at h
        refine ih (i + (decode_rle_position data i).2.2) _ _ ?_ e h
        have := decode_rle_position_count_pos data i
        omega
    · rw [if_neg hi] at h
      exact absurd h (by simp)

theorem nat_le_mul_div_ceil (n k : Nat) (hk : 0 < k) : n ≤ k * ((n + k - 1) / k) := by
  have h1 := Nat.div_add_mod (n + k - 1) k
  have h2 : (n + k - 1) % k < k := Nat.mod_lt _ hk
  generalize hq : k * ((n + k - 1) / k) = K at h1 ⊢
  generalize hr : (n + k - 1) % k = R at h1 h2
  omega

theorem decode_rle_loop_pix (data : List Nat) (palettes : List Palette) :
    ∀ fuel i cols acc,
      (∀ v ∈ acc, ∃ p, p ∈ palettes ∧ ((127 < p.y ∧ v = 0) ∨ (p.y ≤ 127 ∧ v = 255))) →
      ∀ cols2 px, decode_rle_loop data palettes true fuel i cols acc = .ok (cols2, px) →
        ∀ v ∈ px, ∃ p, p ∈ palettes ∧ ((127 < p.y ∧ v = 0) ∨ (p.y ≤ 127 ∧ v = 255)) := by
  intro fuel
  induction fuel with
  | zero =>
    intro i cols acc hacc cols2 px h
    unfold decode_rle_loop at h
    by_cases hi : i < data.length
    · rw [if_pos hi] at h
      exact absurd h (by simp)
    · rw [if_neg hi] at h
      have hp : (cols, acc) = (cols2, px) := Except.ok.inj h
      rw [Prod.mk.injEq] at hp
      obtain ⟨rfl, rfl⟩ := hp
      exact hacc
  | succ k ih =>
    intro i cols acc hacc cols2 px h
    unfold decode_rle_loop at h
    by_cases hi : i < data.length
    · rw [if_pos hi] at h
      cases hget : palettes.get? (decode_rle_position data i).2.1 with
      | none =>
        rw [hget] at h
        exact absurd h (by simp)
      | some p =>
        rw [hget] at h
        refine ih _ _ _ ?_ cols2 px h
        intro v hv
        rcases List.mem_append.mp hv with h1 | h2
        · exact hacc v h1
        · exact ⟨p, List.get?_mem hget, get_color_true_mem (mem_pyListMul h2)⟩
    · rw [if_neg hi] at h
      have hp : (cols, acc) = (cols2, px) := Except.ok.inj h
      rw [Prod.mk.injEq] at hp
      obtain ⟨rfl, rfl⟩ := hp
      exact hacc

theorem rle_pad_length (cols n : Nat) (p0 : Palette) (h0 : cols ≠ 0) :
    n + (pyListMul (pyListMul (get_color p0 true) (rle_dim true))
          (cols * rle_rows true cols n * rle_dim true - n)).length
      = cols * rle_rows true cols n * rle_dim true := by
  have hdim : rle_dim true = 1 := rfl
  have hceil : n ≤ cols * rle_rows true cols n := by
    have hrows : rle_rows true cols n = (n + cols - 1) / cols := by
      unfold rle_rows
      rw [hdim, Nat.div_one]
    rw [hrows]
    exact nat_le_mul_div_ceil n cols (Nat.pos_of_ne_zero h0)
  rw [pyListMul_length, pyListMul_length, get_color_true_length, hdim]
  simp only [Nat.mul_one, Nat.one_mul]
  generalize cols * rle_rows true cols n = K at hceil ⊢
  omega

/-- Claim C3 (amended): decode_rle_image can raise — an out-of-range palette
index raises IndexError and an end-of-line marker before any pixel makes
cols = 0 and raises ZeroDivisionError — but these are the only possible errors
in binary mode, and whenever it returns an image the dimensions satisfy
rows * cols * dimension = number of emitted pixel entries (the tail padded
with palette[0] on mismatch, so the numpy reshape never fails). -/
theorem c3_decode_dimension_amended (data : List Nat) (palettes : List Palette) :
    (∀ e, decode_rle_image data palettes true = .error e →
        e = "IndexError" ∨ e = "ZeroDivisionError")
    ∧ (∀ r c px, decode_rle_image data palettes true = .ok (r, c, px) →
        r * c * rle_dim true = px.length) := by
  unfold decode_rle_image
  cases hloop : decode_rle_loop data palettes true data.length 0 1 [] with
  | error e0 =>
    have he0 := decode_rle_loop_err data palettes true data.length 0 1 []
      (by omega) e0 hloop
    dsimp only
    constructor
    · intro e h
      have : e0 = e := Except.error.inj h
      exact Or.inl (this ▸ he0)
    · intro r c px h
      exact absurd h (by simp)
  | ok cp =>
    obtain ⟨cols, px0⟩ := cp
    dsimp only
    by_cases h0 : cols = 0
    · rw [if_pos h0]
      constructor
      · intro e h
        exact Or.inr (Except.error.inj h).symm
      · intro r c px h
        exact absurd h (by simp)
    · rw [if_neg h0]
      by_cases hm : cols * rle_rows true cols px0.length * rle_dim true = px0.length
      · rw [if_pos hm]
        constructor
        · intro e h
          exact absurd h (by simp)
        · intro r c px h
          have hp : (rle_rows true cols px0.length, cols, px0) = (r, c, px) :=
            Except.ok.inj h
          rw [Prod.mk.injEq, Prod.mk.injEq] at hp
          obtain ⟨rfl, rfl, rfl⟩ := hp
          rw [Nat.mul_comm (rle_rows true cols px0.length) cols]
          exact hm
      · rw [if_neg hm]
        cases hget : palettes.get? 0 with
        | none =>
          dsimp only
          constructor
          · intro e h
            exact Or.inl (Except.error.inj h).symm
          · intro r c px h
            exact absurd h (by simp)
        | some p0 =>
          dsimp only
          have hcond : cols * rle_rows true cols px0.length * rle_dim true =
              (px0 ++ pyListMul (pyListMul (get_color p0 true) (rle_dim true))
                (cols * rle_rows true cols px0.length * rle_dim true - px0.length)).length := by
            rw [List.length_append]
            exact (rle_pad_length cols px0.length p0 h0).symm
          rw [if_pos hcond]
          constructor
          · intro e h
            exact absurd h (by simp)
          · intro r c px h
            have hp : (rle_rows true cols px0.length, cols,
                px0 ++ pyListMul (pyListMul (get_color p0 true) (rle_dim true))
                  (cols * rle_rows true cols px0.length * rle_dim true - px0.length))
                = (r, c, px) := Except.ok.inj h
            rw [Prod.mk.injEq, Prod.mk.injEq] at hp
            obtain ⟨rfl, rfl, rfl⟩ := hp
            rw [← hcond]
            ring

/-- Claim C3 witness: on input byte 0x01 with the two-entry palette the decoder
returns a 1-by-1 binary image satisfying the dimension invariant. -/
theorem c3_decode_dimension_witness : (1 : Nat) * 1 * rle_dim true = [(0 : Nat)].length :=
  (c3_decode_dimension_amended [1] palsBright).2 1 1 [0] rfl

/-- Claim C3 counterexample: decode_rle_image raises on a one-byte input with
an empty palette list (palettes[1] is an IndexError), refuting that it never
raises for every input byte string and every palette list. -/
theorem c3_decode_dimension_cex :
    decode_rle_image [1] [] true = .error "IndexError" := rfl

/-- Claim C2 (amended): every pixel entry decoded in binary mode comes from a
palette entry, as 0 when that entry's Y component is strictly greater than 127
and as 255 otherwise (dark ink on white, the OCR-friendly polarity — the
opposite of the claimed mapping). -/
theorem c2_binary_color_amended (data : List Nat) (palettes : List Palette)
    (r c : Nat) (px : List Nat)
    (h : decode_rle_image data palettes true = .ok (r, c, px)) :
    ∀ v ∈ px, ∃ p, p ∈ palettes ∧ ((127 < p.y ∧ v = 0) ∨ (p.y ≤ 127 ∧ v = 255)) := by
  unfold decode_rle_image at h
  cases hloop : decode_rle_loop data palettes true data.length 0 1 [] with
  | error e0 =>
    rw [hloop] at h
    exact absurd h (by simp)
  | ok cp =>
    obtain ⟨cols, px0⟩ := cp
    have hpix := decode_rle_loop_pix data palettes data.length 0 1 []
      (by intro v hv; simp at hv) cols px0 hloop
    rw [hloop] at h
    dsimp only at h
    by_cases h0 : cols = 0
    · rw [if_pos h0] at h
      exact absurd h (by simp)
    · rw [if_neg h0] at h
      by_cases hm : cols * rle_rows true cols px0.length * rle_dim true = px0.length
      · rw [if_pos hm] at h
        have hp : (rle_rows true cols px0.length, cols, px0) = (r, c, px) :=
          Except.ok.inj h
        rw [Prod.mk.injEq, Prod.mk.injEq] at hp
        obtain ⟨rfl, rfl, rfl⟩ := hp
        exact hpix
      · rw [if_neg hm] at h
        cases hget : palettes.get? 0 with
        | none =>
          rw [hget] at h
          exact absurd h (by simp)
        | some p0 =>
          rw [hget] at h
          dsimp only at h
          have hcond : cols * rle_rows true cols px0.length * rle_dim true =
              (px0 ++ pyListMul (pyListMul (get_color p0 true) (rle_dim true))
                (cols * rle_rows true cols px0.length * rle_dim true - px0.length)).length := by
            rw [List.length_append]
            exact (rle_pad_length cols px0.length p0 h0).symm
          rw [if_pos hcond] at h
          have hp : (rle_rows true cols px0.length, cols,
              px0 ++ pyListMul (pyListMul (get_color p0 true) (rle_dim true))
                (cols * rle_rows true cols px0.length * rle_dim true - px0.length))
              = (r, c, px) := Except.ok.inj h
          rw [Prod.mk.injEq, Prod.mk.injEq] at hp
          obtain ⟨rfl, rfl, rfl⟩ := hp
          intro v hv
          rcases List.mem_append.mp hv with h1 | h2
          · exact hpix v h1
          · exact ⟨p0, List.get?_mem hget,
              get_color_true_mem (mem_pyListMul (mem_pyListMul h2))⟩

/-- Claim C2 witness: the pixel decoded from byte 0x01 (palette entry 1, whose
Y component is 200 > 127) is covered by the amended mapping. -/
theorem c2_binary_color_witness :
    ∃ p, p ∈ palsBright ∧ ((127 < p.y ∧ 0 = 0) ∨ (p.y ≤ 127 ∧ 0 = 255)) :=
  c2_binary_color_amended [1] palsBright 1 1 [0] rfl 0 (by decide)

/-- Claim C2 counterexample: decoding byte 0x01 in binary mode against a
palette whose entry 1 has Y = 200 > 127 emits pixel value 0, not the claimed
255. -/
theorem c2_binary_color_cex :
    decode_rle_image [1] palsBright true = .ok (1, 1, [0])
    ∧ 127 < ((⟨200, 10, 20, 255⟩ : Palette)).y ∧ (0 : Nat) ≠ 255 :=
  ⟨rfl, by decide, by decide⟩

theorem read_segments_loop_irrel :
    ∀ f1 f2 b, b.length ≤ f1 → b.length ≤ f2 →
      read_segments_loop f1 b = read_segments_loop f2 b := by
  intro f1
  induction f1 with
  | zero =>
    intro f2 b h1 h2
    have hb : b = [] := List.eq_nil_of_length_eq_zero (Nat.le_zero.mp h1)
    subst hb
    unfold read_segments_loop
    simp
  | succ k ih =>
    intro f2 b h1 h2
    unfold read_segments_loop
    by_cases he : b.isEmpty
    · rw [if_pos he, if_pos he]
    · rw [if_neg he, if_neg he]
      by_cases hpg : b.take 2 ≠ [80, 71]
      · rw [if_pos hpg, if_pos hpg]
      · rw [if_neg hpg, if_neg hpg]
        by_cases hlen : b.length < 13
        · rw [if_pos hlen, if_pos hlen]
        · rw [if_neg hlen, if_neg hlen]
          by_cases htag : validSegTag (b.getD 10 0) = false
          · rw [if_pos htag, if_pos htag]
          · rw [if_neg htag, if_neg htag]
            obtain ⟨m, rfl⟩ : ∃ m, f2 = m + 1 := by
              cases f2 with
              | zero => omega
              | succ m => exact ⟨m, rfl⟩
            dsimp only
            rw [ih m (b.drop (13 + seg_size b))
              (by rw [List.length_drop]; omega)
              (by rw [List.length_drop]; omega)]

theorem read_segments_step (b : List Nat) (hpg : b.take 2 = [80, 71])
    (hlen : 13 ≤ b.length) (htag : validSegTag (b.getD 10 0) = true) :
    read_segments b =
      match read_segments (b.drop (13 + seg_size b)) with
      | .ok rest => .ok (b.take (13 + seg_size b) :: rest)
      | .error e => .error e := by
  obtain ⟨m, hm⟩ : ∃ m, b.length = m + 1 := ⟨b.length - 1, by omega⟩
  show read_segments_loop b.length b = _
  rw [hm, read_segments_loop]
  rw [if_neg (by intro hemp; rw [List.isEmpty_iff] at hemp; subst hemp; simp at hlen)]
  rw [if_neg (not_not_intro hpg)]
  rw [if_neg (by omega)]
  rw [if_neg (by rw [htag]; simp)]
  rw [read_segments_loop_irrel m (b.drop (13 + seg_size b)).length (b.drop (13 + seg_size b))
    (by rw [List.length_drop]; omega) (Nat.le_refl _)]
  rfl

theorem read_segments_complete_cons (s r : List Nat) (hs : isCompleteSeg s) :
    read_segments (s ++ r) =
      match read_segments r with
      | .ok rest => .ok (s :: rest)
      | .error e => .error e := by
  obtain ⟨hpg, htag, hlen⟩ := hs
  have hs2 : 2 ≤ s.length := by
    have := congrArg List.length hpg
    simp [List.length_take] at this
    omega
  have h13 : 13 ≤ s.length := by rw [hlen]; omega
  have htake2 : (s ++ r).take 2 = [80, 71] := by
    rw [List.take_append_of_le_length hs2]
    exact hpg
  have hgetD10 : (s ++ r).getD 10 0 = s.getD 10 0 :=
    List.getD_append s r 0 10 (by omega)
  have hsize : seg_size (s ++ r) = seg_size s := by
    unfold seg_size
    rw [List.getD_append s r 0 11 (by omega), List.getD_append s r 0 12 (by omega)]
  rw [read_segments_step (s ++ r) htake2
    (by rw [List.length_append]; omega) (by rw [hgetD10]; exact htag)]
  rw [hsize, ← hlen, List.take_left, List.drop_left]

theorem read_segments_cut (b : List Nat) (hpg : b.take 2 = [80, 71])
    (hlen : 13 ≤ b.length) (htag : validSegTag (b.getD 10 0) = true)
    (hcut : b.length < 13 + seg_size b) :
    read_segments b = .ok [b] := by
  rw [read_segments_step b hpg hlen htag]
  rw [List.drop_eq_nil_of_le (by omega), List.take_of_length_le (by omega)]
  rfl

/-- Claim C4 (amended): the segment parser never compares the declared total
length 13 + size with the remaining buffer; it stops only when the remainder
is empty, lacks the PG magic, or holds fewer than 13 bytes.  Hence a prefix of
a valid stream cut mid-segment, with at least 13 bytes of the cut segment
left, yields the fully-parsed prior segments plus one additional truncated
segment holding the available bytes. -/
theorem c4_prefix_truncated_amended (ss : List (List Nat)) (b : List Nat)
    (hss : ∀ s ∈ ss, isCompleteSeg s)
    (hpg : b.take 2 = [80, 71]) (hlen : 13 ≤ b.length)
    (htag : validSegTag (b.getD 10 0) = true) (hcut : b.length < 13 + seg_size b) :
    read_segments (ss.flatten ++ b) = .ok (ss ++ [b]) := by
  induction ss with
  | nil =>
    simp only [List.flatten_nil, List.nil_append]
    exact read_segments_cut b hpg hlen htag hcut
  | cons s tl ih =>
    have hs := hss s (List.mem_cons_self s tl)
    have hrest : ∀ t ∈ tl, isCompleteSeg t := fun t ht => hss t (List.mem_cons_of_mem s ht)
    rw [List.flatten_cons, List.append_assoc]
    rw [read_segments_complete_cons s _ hs, ih hrest]
    rfl

/-- Claim C4 witness: a stream of one complete 14-byte segment followed by a
segment cut off after its 13-byte header parses to the complete segment plus
the truncated one. -/
theorem c4_prefix_truncated_witness :
    read_segments (List.flatten [seg14] ++ cut13) = .ok ([seg14] ++ [cut13]) :=
  c4_prefix_truncated_amended [seg14] cut13 (by decide) (by decide) (by decide)
    (by decide) (by decide)

/-- Claim C4 counterexample: seg14 is a complete segment declaring total
length 14; its 13-byte prefix (a mid-segment cut) parses to one truncated
segment, not to the empty segment list the claim demands. -/
theorem c4_prefix_truncated_cex :
    isCompleteSeg seg14
    ∧ read_segments seg14 = .ok [seg14]
    ∧ read_segments (seg14.take 13) = .ok [seg14.take 13]
    ∧ ([seg14.take 13] : List (List Nat)) ≠ [] :=
  ⟨by decide, rfl, rfl, by decide⟩

theorem auto_fix_start_none (i : SubtitleItem) (nxt : Option SubtitleItem)
    (h : i.start = none) : auto_fix i nxt = (false, i) := by
  unfold auto_fix
  rw [h]

theorem auto_fix_end_ok (i : SubtitleItem) (nxt : Option SubtitleItem) (s : Nat)
    (hs : i.start = some s) (hec : end_corrupt s i.endT = false) :
    auto_fix i nxt = (item_valid_flags i, i) := by
  unfold auto_fix
  rw [hs]
  dsimp only
  rw [if_neg (by rw [hec]; exact Bool.false_ne_true)]

theorem auto_fix_no_next (i : SubtitleItem) (s : Nat)
    (hs : i.start = some s) (hec : end_corrupt s i.endT = true) :
    auto_fix i none = (false, i) := by
  unfold auto_fix
  rw [hs]
  dsimp only
  rw [if_pos hec]

theorem auto_fix_next_no_start (i j : SubtitleItem) (s : Nat)
    (hs : i.start = some s) (hec : end_corrupt s i.endT = true)
    (hjs : j.start = none) :
    auto_fix i (some j) = (false, i) := by
  unfold auto_fix
  rw [hs]
  dsimp only
  rw [if_pos hec]
  rw [hjs]

theorem auto_fix_repair (i j : SubtitleItem) (s t : Nat)
    (hs : i.start = some s) (hec : end_corrupt s i.endT = true)
    (hjs : j.start = some t) (hle : s + 10000 ≥ t) :
    auto_fix i (some j) = (item_valid_flags i, { i with endT := some (max (s + 1) (t - 1)) }) := by
  unfold auto_fix
  rw [hs]
  dsimp only
  rw [if_pos hec]
  rw [hjs]
  dsimp only
  rw [if_pos hle]

theorem auto_fix_gap_too_big (i j : SubtitleItem) (s t : Nat)
    (hs : i.start = some s) (hec : end_corrupt s i.endT = true)
    (hjs : j.start = some t) (hgt : ¬s + 10000 ≥ t) :
    auto_fix i (some j) = (false, i) := by
  unfold auto_fix
  rw [hs]
  dsimp only
  rw [if_pos hec]
  rw [hjs]
  dsimp only
  rw [if_neg hgt]

theorem auto_fix_keeps_valid_times (i : SubtitleItem) (nxt : Option SubtitleItem)
    (h : (auto_fix i nxt).fst = true) :
    ∃ s e, (auto_fix i nxt).snd.start = some s ∧ (auto_fix i nxt).snd.endT = some e ∧ s < e := by
  cases hst : i.start with
  | none =>
    rw [auto_fix_start_none i nxt hst] at h
    simp at h
  | some s =>
    cases hec : end_corrupt s i.endT with
    | false =>
      rw [auto_fix_end_ok i nxt s hst hec]
      cases he : i.endT with
      | none =>
        rw [he] at hec
        simp [end_corrupt] at hec
      | some e =>
        rw [he] at hec
        simp [end_corrupt] at hec
        exact ⟨s, e, hst, rfl, by omega⟩
    | true =>
      cases nxt with
      | none =>
        rw [auto_fix_no_next i s hst hec] at h
        simp at h
      | some j =>
        cases hjs : j.start with
        | none =>
          rw [auto_fix_next_no_start i j s hst hec hjs] at h
          simp at h
        | some t =>
          by_cases hle : s + 10000 ≥ t
          · rw [auto_fix_repair i j s t hst hec hjs hle]
            exact ⟨s, max (s + 1) (t - 1), hst, rfl, by
              have := Nat.le_max_left (s + 1) (t - 1)
              omega⟩
          · rw [auto_fix_gap_too_big i j s t hst hec hjs hle] at h
            simp at h

/-- Claim C7: every subtitle item surviving the auto-fix pass of item creation
has a present start timestamp and an end timestamp strictly greater than it. -/
theorem c7_surviving_items_valid (l : List SubtitleItem) :
    ∀ x ∈ auto_fix_all l, ∃ s e, x.start = some s ∧ x.endT = some e ∧ s < e := by
  induction l with
  | nil =>
    intro x hx
    simp [auto_fix_all] at hx
  | cons i tl ih =>
    cases tl with
    | nil =>
      intro x hx
      simp only [auto_fix_all] at hx
      by_cases hv : (auto_fix i none).fst = true
      · rw [if_pos hv] at hx
        simp at hx
        subst hx
        exact auto_fix_keeps_valid_times i none hv
      · rw [if_neg hv] at hx
        simp at hx
    | cons j rest =>
      intro x hx
      simp only [auto_fix_all] at hx
      rcases List.mem_append.mp hx with h1 | h2
      · by_cases hv : (auto_fix i (some j)).fst = true
        · rw [if_pos hv] at h1
          simp at h1
          subst h1
          exact auto_fix_keeps_valid_times i (some j) hv
        · rw [if_neg hv] at h1
          simp at h1
      · exact ih x h2

/-- Claim C7 witness: the fully valid item survives the pass and satisfies the
invariant. -/
theorem c7_surviving_items_valid_witness :
    ∃ s e, itemGood.start = some s ∧ itemGood.endT = some e ∧ s < e :=
  c7_surviving_items_valid [itemGood] itemGood (by decide)

/-- Claim C5 (amended): for consecutive candidates (i, j) where i has a start
and its end is missing or not greater than the start: when j's start exists
and lies within 10 000 ms of i's start, i's end is set to
max(i.start + 1, j.start - 1) and i is kept PROVIDED its image and both window
offsets are present; when the gap exceeds 10 000 ms, or there is no j, i is
dropped. -/
theorem c5_auto_fix_repair_amended (i j : SubtitleItem) (s : Nat)
    (himg : i.image.isSome = true) (hy : i.y_offset.isSome = true)
    (hx : i.x_offset.isSome = true) (hs : i.start = some s)
    (hend : ∀ e, i.endT = some e → e ≤ s) :
    (∀ t, j.start = some t → t ≤ s + 10000 →
        auto_fix i (some j) = (true, { i with endT := some (max (s + 1) (t - 1)) }))
    ∧ (∀ t, j.start = some t → s + 10000 < t → (auto_fix i (some j)).fst = false)
    ∧ (auto_fix i none).fst = false := by
  have hec : end_corrupt s i.endT = true := by
    cases he : i.endT with
    | none => rfl
    | some e =>
      simp only [end_corrupt, decide_eq_true_eq]
      exact hend e he
  have hflags : item_valid_flags i = true := by
    simp [item_valid_flags, himg, hy, hx]
  refine ⟨?_, ?_, ?_⟩
  · intro t hjs hle
    rw [auto_fix_repair i j s t hs hec hjs (by omega), hflags]
  · intro t hjs hgt
    rw [auto_fix_gap_too_big i j s t hs hec hjs (by omega)]
  · rw [auto_fix_no_next i s hs hec]

/-- Claim C5 witness: a well-formed item with no end, followed 4000 ms later,
is kept and repaired to end at j.start - 1 = 4999. -/
theorem c5_auto_fix_repair_witness :
    auto_fix itemNoEnd (some itemLater) = (true, { itemNoEnd with endT := some 4999 }) := by
  have h := (c5_auto_fix_repair_amended itemNoEnd itemLater 1000 rfl rfl rfl rfl
    (by intro e he; simp [itemNoEnd] at he)).1 5000 rfl (by norm_num)
  exact h

/-- Claim C5 counterexample: an item whose image is missing, with start
1000 ms and the next start 2000 ms (gap well within 10 000 ms), gets its end
repaired but is nevertheless dropped (valid = false), refuting that it is
kept. -/
theorem c5_auto_fix_repair_cex :
    auto_fix itemNoImage (some itemAfter)
      = (false, { itemNoImage with endT := some 1999 })
    ∧ (2000 : Nat) - 1000 ≤ 10000 :=
  ⟨by decide, by decide⟩

/-- Claim C10 (amended): to_time maps pts ticks 0 to None; an item built from
a single display set whose PCS carries pts ticks 0 therefore has start = None
and is dropped by auto_fix (with a warning) rather than emitted with
start = 0 ms.  (With two or more display sets all at pts ticks 0, min over
several Nones raises TypeError instead — see the counterexample.) -/
theorem c10_zero_pts_amended (i : SubtitleItem) (nxt : Option SubtitleItem)
    (h : i.start = none) :
    to_time 0 = none ∧ item_start [0] = .ok none ∧ (auto_fix i nxt).fst = false := by
  refine ⟨rfl, rfl, ?_⟩
  rw [auto_fix_start_none i nxt h]

/-- Claim C10 witness: the start-less item is dropped. -/
theorem c10_zero_pts_witness :
    to_time 0 = none ∧ item_start [0] = .ok none
    ∧ (auto_fix itemNoStart none).fst = false :=
  c10_zero_pts_amended itemNoStart none rfl

/-- Claim C10 counterexample: an item whose TWO display sets both carry
pts ticks 0 makes min([None, None]) raise TypeError, so the item is not
dropped with a warning — the whole source fails. -/
theorem c10_zero_pts_cex : item_start [0, 0] = .error "TypeError" := rfl

/-- Claim C6 (amended): the mosaic gaps are gap_y = max_item_height / 4 + 30
and gap_x = max_item_height / 4 + 100 (integer division): the code first
halves the maximum item height (max_height = max // 2) and then halves that
again when building the gap (max_height // 2 + {30, 100}). -/
theorem c6_gap_amended (hs : List Nat) (m : Nat) (h : pyMax hs = .ok m) :
    ripper_gap hs = .ok (m / 4 + 30, m / 4 + 100) := by
  unfold ripper_gap
  rw [h]
  dsimp only
  rw [Nat.div_div_eq_div_mul]

/-- Claim C6 witness: a single item of height 100 gives gaps (55, 125). -/
theorem c6_gap_witness : ripper_gap [100] = .ok (100 / 4 + 30, 100 / 4 + 100) :=
  c6_gap_amended [100] 100 rfl

/-- Claim C6 counterexample: with maximum item height 100 the code computes
gaps (55, 125), not the claimed (100/2 + 30, 100/2 + 100) = (80, 150). -/
theorem c6_gap_cex :
    ripper_gap [100] = .ok (55, 125)
    ∧ ((55 : Nat), (125 : Nat)) ≠ (100 / 2 + 30, 100 / 2 + 100) :=
  ⟨rfl, by decide⟩

/-- Claim C8 (amended): an empty byte stream yields zero segments, zero
display sets and zero subtitle items; but constructing the ripper then
computes max() over the empty item-height list, which raises ValueError, so
rip_pgs catches the error and returns failure — no empty SRT is produced. -/
theorem c8_empty_stream_amended :
    read_segments [] = .ok []
    ∧ group_display_sets [] [] = []
    ∧ auto_fix_all [] = []
    ∧ ripper_gap [] = .error "ValueError" :=
  ⟨rfl, rfl, rfl, rfl⟩

/-- Claim C8 counterexample: on the empty item list the ripper-constructor gap
computation does not return a value at all (max of an empty sequence), so
ripping cannot complete normally. -/
theorem c8_empty_stream_cex :
    pyMax [] = .error "ValueError" ∧ (ripper_gap []).isOk = false :=
  ⟨rfl, rfl⟩

/-- Claim C1 (amended): when a pass leaves at least 20 items unresolved and
more than 0.8 times the previous count, the next pass runs with confidence
decremented by 5 (floored at 0) and with max_width recomputed from the
REMAINING items as min(sum of (item width + gap_x), max_tess_width) // 2 —
not as half of the current pass's max_width. -/
theorem c1_retry_params_amended (gapX maxTess conf maxW prev : Nat) (ws : List Nat)
    (h20 : 20 ≤ ws.length) (hprog : 4 * prev < 5 * ws.length) :
    rip_next gapX maxTess conf maxW prev ws
      = .more (conf - 5) ((min ((ws.map (· + gapX)).sum) maxTess) / 2) ws.length := by
  unfold rip_next
  rw [if_neg (by
    intro he
    rw [List.isEmpty_iff] at he
    subst he
    simp at h20)]
  rw [if_neg (by omega : ¬ws.length < 20)]
  rw [if_pos hprog]

/-- Claim C1 witness: 21 items of width 100 remain out of 25, gap_x = 100,
confidence 65, max_width = max_tess_width = 31744; the next pass uses
confidence 60 and max_width (21 * 200) / 2 = 2100. -/
theorem c1_retry_params_witness :
    rip_next 100 31744 65 31744 25 (List.replicate 21 100) = .more 60 2100 21 :=
  c1_retry_params_amended 100 31744 65 31744 25 (List.replicate 21 100)
    (by decide) (by decide)

/-- Claim C1 counterexample: in the same state the claim predicts
max_width = min(31744 / 2, 31744) = 15872 for the next pass, but the code
computes 2100. -/
theorem c1_retry_params_cex :
    rip_next 100 31744 65 31744 25 (List.replicate 21 100) = .more 60 2100 21
    ∧ (2100 : Nat) ≠ min (31744 / 2) 31744 :=
  ⟨by decide, by decide⟩

theorem sorted_lex_orderedInsert (a : MkvTrack) :
    ∀ m : List MkvTrack, List.Sorted track_lex m →
      (∀ b ∈ m, forced_rank a ≤ forced_rank b) →
      List.Sorted track_lex (List.orderedInsert track_le_id a m) := by
  intro m
  induction m with
  | nil =>
    intro _ _
    exact List.sorted_singleton a
  | cons b m ih =>
    intro hsort hall
    rw [List.orderedInsert]
    by_cases hab : track_le_id a b
    · rw [if_pos hab]
      rw [List.sorted_cons]
      refine ⟨?_, hsort⟩
      intro c hc
      rcases List.mem_cons.mp hc with rfl | hcm
      · rcases Nat.lt_or_ge a.id c.id with hlt | hge
        · exact Or.inl hlt
        · exact Or.inr ⟨Nat.le_antisymm hab hge, hall c (List.mem_cons_self c m)⟩
      · have hbc := List.rel_of_sorted_cons hsort c hcm
        rcases hbc with h1 | ⟨h2, _⟩
        · exact Or.inl (Nat.lt_of_le_of_lt hab h1)
        · rcases Nat.lt_or_ge a.id c.id with hlt | hge
          · exact Or.inl hlt
          · have hac : track_le_id a c := by
              unfold track_le_id at hab ⊢
              omega
            exact Or.inr ⟨Nat.le_antisymm hac hge, hall c (List.mem_cons_of_mem b hcm)⟩
    · rw [if_neg hab]
      rw [List.sorted_cons]
      have hm : List.Sorted track_lex m := (List.sorted_cons.mp hsort).2
      have hbm : ∀ c ∈ m, track_lex b c := (List.sorted_cons.mp hsort).1
      refine ⟨?_, ih hm (fun c hc => hall c (List.mem_cons_of_mem b hc))⟩
      intro c hc
      rcases (List.mem_orderedInsert track_le_id).mp hc with rfl | hcm
      · exact Or.inl (Nat.lt_of_not_le hab)
      · exact hbm c hcm

theorem sorted_lex_insertionSort :
    ∀ l : List MkvTrack, List.Sorted track_le_forced l →
      List.Sorted track_lex (List.insertionSort track_le_id l) := by
  intro l
  induction l with
  | nil =>
    intro _
    exact List.sorted_nil
  | cons a l ih =>
    intro hsort
    rw [List.insertionSort]
    apply sorted_lex_orderedInsert
    · exact ih (List.sorted_cons.mp hsort).2
    · intro b hb
      exact (List.sorted_cons.mp hsort).1 b ((List.mem_insertionSort track_le_id).mp hb)

/-- Claim C9 (amended): after filtering to enabled HDMV PGS subtitle tracks,
the candidate list is a permutation of the filtered tracks ordered with the
track id ascending as the PRIMARY key and the forced flag ascending breaking
id ties — the stable sort by id runs last, over a list pre-sorted stably by
forced — not with forced as the primary key. -/
theorem c9_track_sort_amended (ts : List MkvTrack) :
    (get_pgs_tracks ts).Perm (ts.filter pgs_track_filter)
    ∧ List.Sorted track_lex (get_pgs_tracks ts) := by
  constructor
  · exact (List.perm_insertionSort track_le_id _).trans
      (List.perm_insertionSort track_le_forced _)
  · exact sorted_lex_insertionSort _ (List.sorted_insertionSort track_le_forced _)

/-- Claim C9 counterexample: tracks {id 2, not forced} and {id 1, forced}
come out ordered [id 1 forced, id 2 not-forced]: the forced flag DESCENDS, so
forced-ascending is not the primary sort key as claimed; id is. -/
theorem c9_track_sort_cex :
    get_pgs_tracks [trackA, trackB] = [trackB, trackA]
    ∧ ¬track_forced_lex trackB trackA :=
  ⟨by decide, by decide⟩
